import Mathlib

/-!
Shallow embedding of `src/script.js` (the "glyph scanner" animation).

The script is a single-threaded animation and interaction loop.  All
numeric state is modelled over `ℚ` (the script's arithmetic on these
quantities is exact decimal arithmetic at the precision exercised here;
the constants 0.99, 0.01, 0.001, 0.0002, ... are exact decimals).

External collaborators (the font loader / `TextGeometry` shape provider,
the renderer, the camera's `tan`) are black boxes: a newly built glyph
geometry enters the model as its raw bounding-box extents in Y, and
`tan(fov/2)` enters as an opaque parameter `tanHalfFov`.  The random beam
colour choice and the GPU resource bookkeeping do not affect any modelled
quantity and are not part of the state.
-/

namespace GlyphScanner

/-- Configuration, line 9: `"KSHTC LOM".split("").filter(c => c.trim() !== "")`.
A single character trims to the empty string exactly when it is whitespace. -/
def CHARS : List Char := ("KSHTC LOM".toList).filter (fun c => !(c.isWhitespace))

/-- Configuration, line 15: `const CYCLE_DURATION = 2.0`. -/
def CYCLE_DURATION : ℚ := 2

/-- Interaction constant, line 160: `const friction = 0.99`. -/
def friction : ℚ := 0.99

/-- THREE.MathUtils.lerp: `x + (y - x) * t`. -/
def lerp (x y t : ℚ) : ℚ := x + (y - x) * t

/-- A 2D point or vector (pointer coordinates, angular velocity). -/
structure Vec2 where
  x : ℚ
  y : ℚ
deriving DecidableEq, Repr

/-- Three scalar components: an Euler rotation or an axis scale triple. -/
structure Triple where
  x : ℚ
  y : ℚ
  z : ℚ
deriving DecidableEq, Repr

/-- The live mesh: which character it was built for, its rotation and scale. -/
structure Mesh where
  char : Char
  rotation : Triple
  scale : Triple
deriving DecidableEq, Repr

/-- Raw bounding-box extent in Y of a glyph geometry as returned by the
external shape provider (`TextGeometry` + `computeBoundingBox`, lines
186-208), before the centering translate. -/
structure GeometryBox where
  minY : ℚ
  maxY : ℚ
deriving DecidableEq, Repr

/-- The module-level mutable state of `src/script.js`, lines 140-163 and
251-252, together with the shader uniforms and camera position that the
loop writes (lines 128-138, 244). -/
structure SysState where
  charIndex : ℕ
  currentFont : Bool
  currentMesh : Option Mesh
  meshStartTime : ℚ
  geoTopY : ℚ
  geoBottomY : ℚ
  isDragging : Bool
  previousMouse : Vec2
  rotationVelocity : Vec2
  currentRotation : Triple
  targetScale : ℚ
  currentScale : ℚ
  clickFlashValue : ℚ
  downTime : ℚ
  downPos : Vec2
  uScanY : ℚ
  uClickFlash : ℚ
  cameraZ : ℚ
deriving DecidableEq, Repr

/-- Initial state, lines 140-163: `charIndex = 0`, no mesh, no font, not
dragging, zero velocity, unit scale, zero flash, camera at z = 100.  The
initial rotation is random (lines 155-159); it enters as parameter `r`. -/
def initState (r : Triple) : SysState where
  charIndex := 0
  currentFont := false
  currentMesh := none
  meshStartTime := 0
  geoTopY := 0
  geoBottomY := 0
  isDragging := false
  previousMouse := ⟨0, 0⟩
  rotationVelocity := ⟨0, 0⟩
  currentRotation := r
  targetScale := 1
  currentScale := 1
  clickFlashValue := 0
  downTime := 0
  downPos := ⟨0, 0⟩
  uScanY := 0
  uClickFlash := 0
  cameraZ := 100

/-- createLetter, lines 167-245.  Guard: `if (!currentFont) return`.  If a
mesh is live, its rotation is copied into `currentRotation` before the old
mesh is discarded (lines 169-177).  The new geometry for
`CHARS[charIndex]` arrives as its bounding box `box`; the centering
translate (lines 212-216) shifts Y by `-0.5*(maxY+minY)`, and
`geoTopY`/`geoBottomY` are re-read from the translated box (lines
220-222).  The new mesh gets the carried-over rotation (line 227) and the
fixed anisotropic scale `(1.2, 0.8, 1.0)` (line 231).  The `uClickFlash`
uniform is zeroed (line 235).  Camera fit, lines 241-244:
`dist = (sizeY*0.9) / (2*tan(fov/2))`, then `camera.position.z = dist + 40`;
`tan(fov/2)` is the opaque parameter `tanHalfFov`. -/
def createLetter (box : GeometryBox) (tanHalfFov : ℚ) (s : SysState) : SysState :=
  if s.currentFont = false then s
  else
    let rot := match s.currentMesh with
      | some m => m.rotation
      | none => s.currentRotation
    let char := CHARS.getD s.charIndex ' '
    let sizeY := box.maxY - box.minY
    let centerOffsetY := -(0.5 : ℚ) * (box.maxY + box.minY)
    let topY := box.maxY + centerOffsetY
    let bottomY := box.minY + centerOffsetY
    let targetH := sizeY * 0.9
    let dist := targetH / (2 * tanHalfFov)
    { s with currentRotation := rot
           , geoTopY := topY
           , geoBottomY := bottomY
           , currentMesh := some { char := char, rotation := rot, scale := ⟨1.2, 0.8, 1⟩ }
           , uClickFlash := 0
           , cameraZ := dist + 40 }

/-- onDown, lines 254-264: start dragging, record down position and time,
zero the angular velocity. -/
def onDown (pos : Vec2) (now : ℚ) (s : SysState) : SysState :=
  { s with isDragging := true
         , previousMouse := pos
         , downPos := pos
         , downTime := now
         , rotationVelocity := ⟨0, 0⟩ }

/-- onMove, lines 266-281: only while dragging and with a live mesh,
set per-axis velocity to `delta * 0.01`, apply it immediately to the mesh
rotation, and update the last pointer position. -/
def onMove (pos : Vec2) (s : SysState) : SysState :=
  match s.currentMesh with
  | none => s
  | some m =>
    if s.isDragging then
      let deltaX := pos.x - s.previousMouse.x
      let deltaY := pos.y - s.previousMouse.y
      let vy := deltaX * 0.01
      let vx := deltaY * 0.01
      { s with rotationVelocity := ⟨vx, vy⟩
             , currentMesh := some { m with rotation :=
                 ⟨m.rotation.x + vx, m.rotation.y + vy, m.rotation.z⟩ }
             , previousMouse := pos }
    else s

/-- Squared Euclidean displacement of the up position from the down
position, line 289 before the square root:
`Math.pow(x - downPos.x, 2) + Math.pow(y - downPos.y, 2)`. -/
def distSq (down up : Vec2) : ℚ := (up.x - down.x) ^ 2 + (up.y - down.y) ^ 2

/-- onUp, lines 283-297: stop dragging; if held `< 250` ms and moved
`Math.sqrt(distSq) < 5` pixels, it is a tap: `currentScale = 1.1`,
`targetScale = 1.0`, `clickFlashValue = 0.5`.  Since both sides are
nonnegative, `Math.sqrt(d) < 5` is encoded as `d < 25`; theorem
`sqrt_lt_five_iff` below proves this encoding equivalent to the source's
square-root comparison. -/
def onUp (pos : Vec2) (now : ℚ) (s : SysState) : SysState :=
  let s0 := { s with isDragging := false }
  let timeDelta := now - s.downTime
  let d2 := distSq s.downPos pos
  if timeDelta < 250 ∧ d2 < 25 then
    { s0 with currentScale := 1.1, targetScale := 1, clickFlashValue := 0.5 }
  else s0

/-- Idle rotation physics, lines 367-383 (`if (!isDragging)` body): apply
residual velocity to rotation, damp velocity by `friction`, and if both
damped components are below 0.001 in magnitude, additionally add the
constant drift `(0.0002, 0.0003, 0.0001)`. -/
def idleRotationUpdate (rot : Triple) (vel : Vec2) : Triple × Vec2 :=
  let rot1 : Triple := ⟨rot.x + vel.x, rot.y + vel.y, rot.z⟩
  let vel1 : Vec2 := ⟨vel.x * friction, vel.y * friction⟩
  if |vel1.x| < 0.001 ∧ |vel1.y| < 0.001 then
    (⟨rot1.x + 0.0002, rot1.y + 0.0003, rot1.z + 0.0001⟩, vel1)
  else (rot1, vel1)

/-- Scan Driver, lines 359-363: `margin = 250`,
`lerp(geoTopY + margin, geoBottomY - margin, progress)`. -/
def computeScanY (topY bottomY progress : ℚ) : ℚ :=
  lerp (topY + 250) (bottomY - 250) progress

/-- animate, lines 334-397, one frame at clock time `now`.  `elapsed` is
bound once (line 343) before the cycle check; the cycle branch (lines
346-350) advances `charIndex`, rebuilds the letter and resets
`meshStartTime`, but the scan logic (lines 352-364) still reads the stale
`elapsed`.  Then, with a live mesh: push the scan Y; if not dragging run
the idle rotation physics; lerp the scale toward its target and reapply
the anisotropic scale (lines 387-388); decay the flash and push it
(lines 391-392). -/
def animateStep (now : ℚ) (box : GeometryBox) (tanHalfFov : ℚ) (s : SysState) : SysState :=
  let elapsed := now - s.meshStartTime
  let s1 :=
    if elapsed > CYCLE_DURATION then
      let sInc := { s with charIndex := (s.charIndex + 1) % CHARS.length }
      let sNew := createLetter box tanHalfFov sInc
      { sNew with meshStartTime := now }
    else s
  match s1.currentMesh with
  | none => s1
  | some m =>
    let progress := elapsed / CYCLE_DURATION
    let currentScanY := computeScanY s1.geoTopY s1.geoBottomY progress
    let rv :=
      if s1.isDragging then (m.rotation, s1.rotationVelocity)
      else idleRotationUpdate m.rotation s1.rotationVelocity
    let cs := lerp s1.currentScale s1.targetScale 0.1
    let cf := lerp s1.clickFlashValue 0 0.05
    { s1 with uScanY := currentScanY
            , currentMesh := some { m with rotation := rv.1
                                         , scale := ⟨cs * 1.2, cs * 0.8, cs⟩ }
            , rotationVelocity := rv.2
            , currentScale := cs
            , clickFlashValue := cf
            , uClickFlash := cf }

/-- Font-load callback, lines 326-332: mark the font present, build the
first letter, record the cycle start, and start the loop. -/
def onFontLoad (now : ℚ) (box : GeometryBox) (tanHalfFov : ℚ) (s : SysState) : SysState :=
  let s1 := createLetter box tanHalfFov { s with currentFont := true }
  { s1 with meshStartTime := now }

/-- Every externally triggered transition of the system: a frame of the
loop, the three pointer/touch handlers, and the one-shot font load.  The
resize handler (lines 44-49) touches none of the modelled state. -/
inductive Event where
  | frame (now : ℚ) (box : GeometryBox) (tanHalfFov : ℚ)
  | down (pos : Vec2) (now : ℚ)
  | move (pos : Vec2)
  | up (pos : Vec2) (now : ℚ)
  | fontLoad (now : ℚ) (box : GeometryBox) (tanHalfFov : ℚ)

/-- Apply one event to the state. -/
def stepEvent : Event → SysState → SysState
  | .frame now box thf => animateStep now box thf
  | .down pos now => onDown pos now
  | .move pos => onMove pos
  | .up pos now => onUp pos now
  | .fontLoad now box thf => onFontLoad now box thf

/-- States reachable from some initial state by any event sequence. -/
inductive Reachable : SysState → Prop
  | init (r : Triple) : Reachable (initState r)
  | step (e : Event) {s : SysState} : Reachable s → Reachable (stepEvent e s)

/-!
Fragment shader, lines 76-125, the quantities the rendering-contract
claims are about.  GLSL `smoothstep(e0, e1, x)` is
`t = clamp((x-e0)/(e1-e0), 0, 1); t*t*(3-2t)`; all shader arithmetic is
modelled over `ℚ`.
-/

/-- GLSL clamp of `x` to `[lo, hi]`. -/
def clampQ (x lo hi : ℚ) : ℚ := max lo (min hi x)

/-- GLSL smoothstep. -/
def smoothstep (e0 e1 x : ℚ) : ℚ :=
  let t := clampQ ((x - e0) / (e1 - e0)) 0 1
  t * t * (3 - 2 * t)

/-- Beam intensity at signed vertical distance `dist = vPosition.y - uScanY`
from the scan line, lines 82-97: spread 180 above (`dist > 0`, the trail),
100 below (the lead); `(1 - smoothstep(0, spread, |dist|))^2 * 0.6`. -/
def beamIntensity (dist : ℚ) : ℚ :=
  let spread := if dist > 0 then (180 : ℚ) else 100
  let b := 1 - smoothstep 0 spread |dist|
  b * b * 0.6

/-- Rim term of a surface point, lines 102-104:
`rim = (1 - max(0, dot(normal, viewDir)))^2`. -/
def rim (ndotv : ℚ) : ℚ :=
  let r := 1 - max 0 ndotv
  r * r

/-- Combined light before the click flash, lines 109-112:
`beamIntensity + beamIntensity * (rim * 0.8) * 2`. -/
def totalLight (b ndotv : ℚ) : ℚ :=
  b + b * (rim ndotv * 0.8) * 2

end GlyphScanner

namespace GlyphScanner

/-! Helper lemmas shared by the claim theorems. -/

/-- Squared displacement is nonnegative. -/
theorem distSq_nonneg (a b : Vec2) : 0 ≤ distSq a b := by
  unfold distSq; positivity

/-- The source compares `Math.sqrt(d) < 5`; for nonnegative `d` this is
equivalent to the model's `d < 25`. -/
theorem sqrt_lt_five_iff (q : ℚ) : Real.sqrt (q : ℝ) < 5 ↔ q < 25 := by
  rw [Real.sqrt_lt' (by norm_num : (0 : ℝ) < 5)]
  constructor
  · intro h; exact_mod_cast (by norm_num at h ⊢; exact_mod_cast h : (q : ℝ) < 25)
  · intro h; norm_num; exact_mod_cast h

end GlyphScanner

namespace GlyphScanner

/-- C2: for every topY, bottomY and progress in [0,1], the scan position is
the linear interpolation from `topY + 250` (progress 0) to `bottomY - 250`
(progress 1); `position(0) = topY + 250`, `position(1) = bottomY - 250`,
and whenever `topY ≥ bottomY` the position is monotonically non-increasing
in progress. -/
theorem scan_position_spec (topY bottomY : ℚ) :
    (∀ p : ℚ, computeScanY topY bottomY p
        = (topY + 250) + ((bottomY - 250) - (topY + 250)) * p) ∧
    computeScanY topY bottomY 0 = topY + 250 ∧
    computeScanY topY bottomY 1 = bottomY - 250 ∧
    (bottomY ≤ topY → ∀ p q : ℚ, 0 ≤ p → p ≤ q → q ≤ 1 →
        computeScanY topY bottomY q ≤ computeScanY topY bottomY p) := by
  refine ⟨fun p => rfl, by simp [computeScanY, lerp], by simp [computeScanY, lerp], ?_⟩
  intro hle p q hp hpq hq
  simp only [computeScanY, lerp]
  nlinarith

/-- Witness for C2 at `topY = 10`, `bottomY = -10`, progress `1/4 ≤ 3/4`. -/
theorem scan_position_spec_witness :
    computeScanY 10 (-10) 0 = 260 ∧ computeScanY 10 (-10) 1 = -260 ∧
    computeScanY 10 (-10) (3/4) ≤ computeScanY 10 (-10) (1/4) := by
  obtain ⟨-, h0, h1, hmono⟩ := scan_position_spec 10 (-10)
  exact ⟨by rw [h0]; norm_num, by rw [h1]; norm_num,
         hmono (by norm_num) (1/4) (3/4) (by norm_num) (by norm_num) (by norm_num)⟩

/-- C3: a pointer/touch release is a tap iff the hold duration is < 250 ms
and the Euclidean displacement `Math.sqrt(distSq)` is < 5 px; a tap sets
`currentScale = 1.1`, `targetScale = 1.0`, `clickFlashValue = 0.5`, and a
non-tap release changes nothing else than ending the drag; exact boundary
values (250 ms, 5 px) are non-taps. -/
theorem tap_classification (pos : Vec2) (now : ℚ) (s : SysState) :
    ((now - s.downTime < 250 ∧ Real.sqrt ((distSq s.downPos pos : ℚ) : ℝ) < 5) →
        onUp pos now s = { s with isDragging := false, currentScale := 1.1,
                                  targetScale := 1, clickFlashValue := 0.5 }) ∧
    (¬(now - s.downTime < 250 ∧ Real.sqrt ((distSq s.downPos pos : ℚ) : ℝ) < 5) →
        onUp pos now s = { s with isDragging := false }) ∧
    (now - s.downTime = 250 → onUp pos now s = { s with isDragging := false }) ∧
    (Real.sqrt ((distSq s.downPos pos : ℚ) : ℝ) = 5 →
        onUp pos now s = { s with isDragging := false }) := by
  have hiff : Real.sqrt ((distSq s.downPos pos : ℚ) : ℝ) < 5 ↔ distSq s.downPos pos < 25 :=
    sqrt_lt_five_iff _
  refine ⟨?_, ?_, ?_, ?_⟩
  · intro h
    rw [onUp, if_pos ⟨h.1, hiff.mp h.2⟩]
  · intro h
    rw [onUp, if_neg (fun hc => h ⟨hc.1, hiff.mpr hc.2⟩)]
  · intro h
    rw [onUp, if_neg (fun hc => by rw [h] at hc; exact absurd hc.1 (by norm_num))]
  · intro h
    rw [onUp, if_neg (fun hc => by
      have h5 : Real.sqrt ((distSq s.downPos pos : ℚ) : ℝ) < 5 := hiff.mpr hc.2
      rw [h] at h5
      exact absurd h5 (lt_irrefl 5))]

end GlyphScanner

namespace GlyphScanner

/-- Witness for C3: release at the down position after 100 ms is a tap. -/
theorem tap_classification_witness :
    onUp ⟨0, 0⟩ 100 (initState ⟨0, 0, 0⟩)
      = { initState ⟨0, 0, 0⟩ with isDragging := false, currentScale := 1.1,
                                   targetScale := 1, clickFlashValue := 0.5 } :=
  (tap_classification ⟨0, 0⟩ 100 (initState ⟨0, 0, 0⟩)).1
    ⟨by norm_num [initState], by
      have h0 : distSq (initState ⟨0, 0, 0⟩).downPos ⟨0, 0⟩ = 0 := by
        simp [distSq, initState]
      rw [h0]
      simp [Real.sqrt_zero]⟩

/-- A sample live state used by concrete witnesses: font loaded, a mesh
with rotation (1, 2, 3) on screen. -/
def sampleMeshState : SysState :=
  { initState ⟨1, 2, 3⟩ with
      currentFont := true,
      currentMesh := some { char := 'K', rotation := ⟨1, 2, 3⟩, scale := ⟨1.2, 0.8, 1⟩ },
      geoTopY := 30,
      geoBottomY := -30 }

/-- C4: whenever a live mesh is replaced by `createLetter`, the rotation
installed on the new mesh equals the previous mesh's rotation at the
instant of replacement (all three Euler angles), for any rotation values,
and the carried `currentRotation` records that same rotation. -/
theorem rotation_continuity (box : GeometryBox) (thf : ℚ) (s : SysState) (m : Mesh)
    (hfont : s.currentFont = true) (hmesh : s.currentMesh = some m) :
    ∃ m2 : Mesh, (createLetter box thf s).currentMesh = some m2 ∧
      m2.rotation = m.rotation ∧
      (createLetter box thf s).currentRotation = m.rotation := by
  refine ⟨{ char := CHARS.getD s.charIndex ' ', rotation := m.rotation,
            scale := ⟨1.2, 0.8, 1⟩ }, ?_, rfl, ?_⟩ <;>
    simp [createLetter, hfont, hmesh]

/-- Witness for C4 at the sample state with rotation (1, 2, 3). -/
theorem rotation_continuity_witness :
    ∃ m2 : Mesh, (createLetter ⟨-30, 30⟩ 1 sampleMeshState).currentMesh = some m2 ∧
      m2.rotation = Triple.mk 1 2 3 ∧
      (createLetter ⟨-30, 30⟩ 1 sampleMeshState).currentRotation = Triple.mk 1 2 3 :=
  rotation_continuity ⟨-30, 30⟩ 1 sampleMeshState
    { char := 'K', rotation := ⟨1, 2, 3⟩, scale := ⟨1.2, 0.8, 1⟩ } rfl rfl

end GlyphScanner

namespace GlyphScanner

theorem createLetter_charIndex (box : GeometryBox) (thf : ℚ) (s : SysState) :
    (createLetter box thf s).charIndex = s.charIndex := by
  unfold createLetter; split <;> rfl

theorem createLetter_meshStartTime (box : GeometryBox) (thf : ℚ) (s : SysState) :
    (createLetter box thf s).meshStartTime = s.meshStartTime := by
  unfold createLetter; split <;> rfl

theorem animateStep_charIndex (now : ℚ) (box : GeometryBox) (thf : ℚ) (s : SysState) :
    (animateStep now box thf s).charIndex =
      if now - s.meshStartTime > CYCLE_DURATION
      then (s.charIndex + 1) % CHARS.length else s.charIndex := by
  by_cases h : now - s.meshStartTime > CYCLE_DURATION <;>
    simp only [animateStep, h, if_true, if_false] <;>
    (split <;> simp [createLetter_charIndex])

theorem animateStep_meshStartTime (now : ℚ) (box : GeometryBox) (thf : ℚ) (s : SysState) :
    (animateStep now box thf s).meshStartTime =
      if now - s.meshStartTime > CYCLE_DURATION then now else s.meshStartTime := by
  by_cases h : now - s.meshStartTime > CYCLE_DURATION <;>
    simp only [animateStep, h, if_true, if_false] <;>
    (split <;> simp [createLetter_meshStartTime])

end GlyphScanner

namespace GlyphScanner

theorem createLetter_mesh_char (box : GeometryBox) (thf : ℚ) (s : SysState)
    (hfont : s.currentFont = true) :
    ∃ m : Mesh, (createLetter box thf s).currentMesh = some m ∧
      m.char = CHARS.getD s.charIndex ' ' := by
  cases hm : s.currentMesh with
  | none => exact ⟨⟨CHARS.getD s.charIndex ' ', s.currentRotation, ⟨1.2, 0.8, 1⟩⟩,
      by simp [createLetter, hfont, hm], rfl⟩
  | some m => exact ⟨⟨CHARS.getD s.charIndex ' ', m.rotation, ⟨1.2, 0.8, 1⟩⟩,
      by simp [createLetter, hfont, hm], rfl⟩

theorem animateStep_advance_mesh (now : ℚ) (box : GeometryBox) (thf : ℚ) (s : SysState)
    (h : now - s.meshStartTime > CYCLE_DURATION) (hfont : s.currentFont = true) :
    ∃ m : Mesh, (animateStep now box thf s).currentMesh = some m ∧
      m.char = CHARS.getD ((s.charIndex + 1) % CHARS.length) ' ' := by
  simp only [animateStep, h, if_true]
  split
  · next heq =>
      exfalso
      have := createLetter_mesh_char box thf
        { s with charIndex := (s.charIndex + 1) % CHARS.length } hfont
      obtain ⟨m, hm, -⟩ := this
      rw [show ({ createLetter box thf { s with charIndex := (s.charIndex + 1) % CHARS.length } with meshStartTime := now } : SysState).currentMesh = (createLetter box thf { s with charIndex := (s.charIndex + 1) % CHARS.length }).currentMesh from rfl] at heq
      rw [hm] at heq
      exact Option.noConfusion heq
  · next m heq =>
      refine ⟨_, rfl, ?_⟩
      obtain ⟨m2, hm2, hc⟩ := createLetter_mesh_char box thf
        { s with charIndex := (s.charIndex + 1) % CHARS.length } hfont
      have : some m = some m2 := by rw [← heq]; exact hm2
      simp only [Option.some.injEq] at this
      subst this
      exact hc

theorem onMove_charIndex (pos : Vec2) (s : SysState) :
    (onMove pos s).charIndex = s.charIndex := by
  unfold onMove; split
  · rfl
  · split <;> rfl

theorem onUp_charIndex (pos : Vec2) (now : ℚ) (s : SysState) :
    (onUp pos now s).charIndex = s.charIndex := by
  simp only [onUp]; split <;> rfl

end GlyphScanner

namespace GlyphScanner

theorem onFontLoad_charIndex (now : ℚ) (box : GeometryBox) (thf : ℚ) (s : SysState) :
    (onFontLoad now box thf s).charIndex = s.charIndex := by
  have : (onFontLoad now box thf s).charIndex
      = (createLetter box thf { s with currentFont := true }).charIndex := rfl
  rw [this, createLetter_charIndex]

theorem stepEvent_charIndex (e : Event) (s : SysState) :
    (stepEvent e s).charIndex = s.charIndex ∨
    (stepEvent e s).charIndex = (s.charIndex + 1) % CHARS.length := by
  cases e with
  | frame now box thf =>
      rw [show stepEvent (.frame now box thf) s = animateStep now box thf s from rfl,
          animateStep_charIndex]
      by_cases h : now - s.meshStartTime > CYCLE_DURATION
      · exact Or.inr (by rw [if_pos h])
      · exact Or.inl (by rw [if_neg h])
  | down pos now => exact Or.inl rfl
  | move pos => exact Or.inl (onMove_charIndex pos s)
  | up pos now => exact Or.inl (onUp_charIndex pos now s)
  | fontLoad now box thf => exact Or.inl (onFontLoad_charIndex now box thf s)

theorem reachable_charIndex_lt {s : SysState} (h : Reachable s) :
    s.charIndex < CHARS.length := by
  induction h with
  | init r => show 0 < CHARS.length; decide
  | step e h ih =>
      rcases stepEvent_charIndex e _ with heq | heq
      · rw [heq]; exact ih
      · rw [heq]; exact Nat.mod_lt _ (by decide)

/-- C1: on any frame, if the elapsed time in the current cycle exceeds
`CYCLE_DURATION` the character index advances by exactly one modulo
`CHARS.length`, a new mesh is requested for the new index, and the cycle
start time is reset to `now`; otherwise index and cycle start are
untouched; and after an advance, no frame within the next
`CYCLE_DURATION` of time advances again — so over any monotonic (possibly
irregular) frame-time sequence the index advances exactly once per
elapsed duration, never skipping or repeating. -/
theorem cycle_advance_spec (now : ℚ) (box : GeometryBox) (thf : ℚ) (s : SysState)
    (hfont : s.currentFont = true) :
    ((now - s.meshStartTime > CYCLE_DURATION) →
        (animateStep now box thf s).charIndex = (s.charIndex + 1) % CHARS.length ∧
        (animateStep now box thf s).meshStartTime = now ∧
        (∃ m : Mesh, (animateStep now box thf s).currentMesh = some m ∧
            m.char = CHARS.getD ((s.charIndex + 1) % CHARS.length) ' ')) ∧
    ((now - s.meshStartTime ≤ CYCLE_DURATION) →
        (animateStep now box thf s).charIndex = s.charIndex ∧
        (animateStep now box thf s).meshStartTime = s.meshStartTime) ∧
    ((now - s.meshStartTime > CYCLE_DURATION) →
        ∀ (now2 : ℚ) (box2 : GeometryBox) (thf2 : ℚ),
          now2 - now ≤ CYCLE_DURATION →
          (animateStep now2 box2 thf2 (animateStep now box thf s)).charIndex
            = (animateStep now box thf s).charIndex) := by
  refine ⟨fun h => ?_, fun h => ?_, fun h now2 box2 thf2 hle => ?_⟩
  · exact ⟨by rw [animateStep_charIndex, if_pos h],
           by rw [animateStep_meshStartTime, if_pos h],
           animateStep_advance_mesh now box thf s h hfont⟩
  · have h2 : ¬(now - s.meshStartTime > CYCLE_DURATION) := not_lt.mpr h
    exact ⟨by rw [animateStep_charIndex, if_neg h2],
           by rw [animateStep_meshStartTime, if_neg h2]⟩
  · have hms : (animateStep now box thf s).meshStartTime = now := by
      rw [animateStep_meshStartTime, if_pos h]
    rw [animateStep_charIndex, hms, if_neg (not_lt.mpr (by linarith))]

end GlyphScanner

namespace GlyphScanner

/-- Witness for C1: a frame at time 5/2 of a fresh cycle started at 0
advances index 0 to 1 and resets the cycle start; the immediately
following frame at time 3 does not advance again. -/
theorem cycle_advance_spec_witness :
    (animateStep (5/2) ⟨-30, 30⟩ 1 sampleMeshState).charIndex
        = (sampleMeshState.charIndex + 1) % CHARS.length ∧
    (animateStep (5/2) ⟨-30, 30⟩ 1 sampleMeshState).meshStartTime = 5/2 ∧
    (animateStep 3 ⟨-30, 30⟩ 1 (animateStep (5/2) ⟨-30, 30⟩ 1 sampleMeshState)).charIndex
        = (animateStep (5/2) ⟨-30, 30⟩ 1 sampleMeshState).charIndex := by
  obtain ⟨hadv, -, honce⟩ := cycle_advance_spec (5/2) ⟨-30, 30⟩ 1 sampleMeshState rfl
  have h : (5/2 : ℚ) - sampleMeshState.meshStartTime > CYCLE_DURATION := by
    norm_num [sampleMeshState, initState, CYCLE_DURATION]
  obtain ⟨h1, h2, -⟩ := hadv h
  exact ⟨h1, h2, honce h 3 ⟨-30, 30⟩ 1 (by norm_num [CYCLE_DURATION])⟩

/-- C7: the character set is the fixed ordered sequence K S H T C L O M
(8 distinct characters, the space filtered out); every reachable state's
index is a valid position into it, and every event changes the index
only by the wrapping increment `(i+1) % CHARS.length` or not at all. -/
theorem char_set_and_index_invariant :
    CHARS = ['K', 'S', 'H', 'T', 'C', 'L', 'O', 'M'] ∧
    CHARS.Nodup ∧
    (∀ s : SysState, Reachable s → s.charIndex < CHARS.length) ∧
    (∀ (e : Event) (s : SysState),
        (stepEvent e s).charIndex = s.charIndex ∨
        (stepEvent e s).charIndex = (s.charIndex + 1) % CHARS.length) :=
  ⟨by decide, by decide, fun _ h => reachable_charIndex_lt h, stepEvent_charIndex⟩

/-- Witness for C7 at the initial state. -/
theorem char_set_and_index_invariant_witness :
    (initState ⟨0, 0, 0⟩).charIndex < CHARS.length :=
  char_set_and_index_invariant.2.2.1 _ (Reachable.init ⟨0, 0, 0⟩)

end GlyphScanner

namespace GlyphScanner

/-- Projection facts: createLetter does not touch the drag flag. -/
theorem createLetter_isDragging (box : GeometryBox) (thf : ℚ) (s : SysState) :
    (createLetter box thf s).isDragging = s.isDragging := by
  unfold createLetter; split <;> rfl

/-- Projection facts: createLetter does not touch the angular velocity. -/
theorem createLetter_rotationVelocity (box : GeometryBox) (thf : ℚ) (s : SysState) :
    (createLetter box thf s).rotationVelocity = s.rotationVelocity := by
  unfold createLetter; split <;> rfl

/-- Whatever the font state, the mesh after createLetter (if the one before
exists) carries the previous mesh rotation. -/
theorem createLetter_rotation_of_mesh (box : GeometryBox) (thf : ℚ) (s : SysState) (m : Mesh)
    (hmesh : s.currentMesh = some m) :
    ∃ m2 : Mesh, (createLetter box thf s).currentMesh = some m2 ∧ m2.rotation = m.rotation := by
  by_cases hf : s.currentFont = false
  · exact ⟨m, by simp [createLetter, hf, hmesh], rfl⟩
  · exact ⟨⟨CHARS.getD s.charIndex ' ', m.rotation, ⟨1.2, 0.8, 1⟩⟩,
      by simp [createLetter, hf, hmesh], rfl⟩

/-- On a dragging frame the frame step changes neither the rotation value
carried by the mesh nor the angular velocity. -/
theorem animateStep_dragging (now : ℚ) (box : GeometryBox) (thf : ℚ) (s : SysState) (m : Mesh)
    (hdrag : s.isDragging = true) (hmesh : s.currentMesh = some m) :
    ∃ m2 : Mesh, (animateStep now box thf s).currentMesh = some m2 ∧
      m2.rotation = m.rotation ∧
      (animateStep now box thf s).rotationVelocity = s.rotationVelocity := by
  by_cases h : now - s.meshStartTime > CYCLE_DURATION
  · obtain ⟨m2, hm2, hrot⟩ := createLetter_rotation_of_mesh box thf
      { s with charIndex := (s.charIndex + 1) % CHARS.length } m hmesh
    have hm2' : ({ createLetter box thf { s with charIndex := (s.charIndex + 1) % CHARS.length } with meshStartTime := now } : SysState).currentMesh
        = some m2 := hm2
    have hdrag1 : ({ createLetter box thf { s with charIndex := (s.charIndex + 1) % CHARS.length } with meshStartTime := now } : SysState).isDragging = true := by
      rw [show ({ createLetter box thf { s with charIndex := (s.charIndex + 1) % CHARS.length } with meshStartTime := now } : SysState).isDragging
          = (createLetter box thf { s with charIndex := (s.charIndex + 1) % CHARS.length }).isDragging from rfl,
        createLetter_isDragging]
      exact hdrag
    simp only [animateStep, h, if_true, hm2', hdrag1]
    refine ⟨_, rfl, hrot, ?_⟩
    rw [show ({ createLetter box thf { s with charIndex := (s.charIndex + 1) % CHARS.length } with meshStartTime := now } : SysState).rotationVelocity
        = (createLetter box thf { s with charIndex := (s.charIndex + 1) % CHARS.length }).rotationVelocity from rfl,
      createLetter_rotationVelocity]
  · simp only [animateStep, h, if_false, hmesh, hdrag]
    exact ⟨_, rfl, rfl, rfl⟩

/-- Drift branch of the idle physics: when both damped velocity components
are below the 0.001 threshold, the frame adds the inertia step AND the
constant drift. -/
theorem idleRotationUpdate_drift (rot : Triple) (vel : Vec2)
    (h : |vel.x * friction| < 0.001 ∧ |vel.y * friction| < 0.001) :
    idleRotationUpdate rot vel
      = (⟨rot.x + vel.x + 0.0002, rot.y + vel.y + 0.0003, rot.z + 0.0001⟩,
         ⟨vel.x * friction, vel.y * friction⟩) := by
  simp only [idleRotationUpdate]
  split
  · rfl
  · next h2 => exact absurd h h2

/-- No-drift branch of the idle physics. -/
theorem idleRotationUpdate_noDrift (rot : Triple) (vel : Vec2)
    (h : ¬(|vel.x * friction| < 0.001 ∧ |vel.y * friction| < 0.001)) :
    idleRotationUpdate rot vel
      = (⟨rot.x + vel.x, rot.y + vel.y, rot.z⟩,
         ⟨vel.x * friction, vel.y * friction⟩) := by
  simp only [idleRotationUpdate]
  split
  · next h2 => exact absurd h2 h
  · rfl

/-- The sub-threshold condition at velocity (0.0005, 0). -/
theorem smallVelCond : |(1/2000 : ℚ) * friction| < 0.001 ∧ |(0 : ℚ) * friction| < 0.001 := by
  constructor <;>
    · rw [abs_of_nonneg (by rw [friction]; norm_num)]
      rw [friction]; norm_num

/-- Counterexample to C5 as stated: with rotation (0,0,0) and residual
velocity (0.0005, 0), the damped velocity is below the 0.001 threshold on
both axes, yet the resulting x-rotation is 0.0007 — the inertia update
(+0.0005) plus the drift (+0.0002) — not the 0.0002 that an ambient drift
applied "instead of the inertia update" would produce. -/
theorem idle_drift_counterexample :
    |(1/2000 : ℚ) * friction| < 0.001 ∧ |(0 : ℚ) * friction| < 0.001 ∧
    (idleRotationUpdate ⟨0, 0, 0⟩ ⟨1/2000, 0⟩).1.x = 0.0007 ∧
    (idleRotationUpdate ⟨0, 0, 0⟩ ⟨1/2000, 0⟩).1.x ≠ 0 + 0.0002 := by
  refine ⟨smallVelCond.1, smallVelCond.2, ?_, ?_⟩ <;>
    rw [idleRotationUpdate_drift ⟨0, 0, 0⟩ ⟨1/2000, 0⟩ smallVelCond] <;> norm_num

/-- C5 (amended): on every non-dragging frame the residual angular velocity
is applied to the rotation and then damped by friction 0.99 on both axes;
if the damped magnitudes are both strictly below 0.001, the constant drift
(0.0002, 0.0003, 0.0001) is applied on all three axes IN ADDITION TO the
inertia update (not instead of it); the drift fires only under that
condition, and on a dragging frame the frame step changes neither the
rotation value nor the velocity. -/
theorem idle_rotation_spec (rot : Triple) (vel : Vec2) :
    ((idleRotationUpdate rot vel).2 = ⟨vel.x * friction, vel.y * friction⟩) ∧
    ((|vel.x * friction| < 0.001 ∧ |vel.y * friction| < 0.001) →
        (idleRotationUpdate rot vel).1
          = ⟨rot.x + vel.x + 0.0002, rot.y + vel.y + 0.0003, rot.z + 0.0001⟩) ∧
    (¬(|vel.x * friction| < 0.001 ∧ |vel.y * friction| < 0.001) →
        (idleRotationUpdate rot vel).1 = ⟨rot.x + vel.x, rot.y + vel.y, rot.z⟩) ∧
    (∀ (now : ℚ) (box : GeometryBox) (thf : ℚ) (s : SysState) (m : Mesh),
        s.isDragging = true → s.currentMesh = some m →
        ∃ m2 : Mesh, (animateStep now box thf s).currentMesh = some m2 ∧
          m2.rotation = m.rotation ∧
          (animateStep now box thf s).rotationVelocity = s.rotationVelocity) ∧
    (∀ (now : ℚ) (box : GeometryBox) (thf : ℚ) (s : SysState) (m : Mesh),
        s.isDragging = false → s.currentMesh = some m →
        now - s.meshStartTime ≤ CYCLE_DURATION →
        ∃ m2 : Mesh, (animateStep now box thf s).currentMesh = some m2 ∧
          m2.rotation = (idleRotationUpdate m.rotation s.rotationVelocity).1 ∧
          (animateStep now box thf s).rotationVelocity
            = (idleRotationUpdate m.rotation s.rotationVelocity).2) := by
  refine ⟨?_, ?_, ?_, ?_, ?_⟩
  · by_cases h : |vel.x * friction| < 0.001 ∧ |vel.y * friction| < 0.001
    · rw [idleRotationUpdate_drift rot vel h]
    · rw [idleRotationUpdate_noDrift rot vel h]
  · intro h; rw [idleRotationUpdate_drift rot vel h]
  · intro h; rw [idleRotationUpdate_noDrift rot vel h]
  · exact fun now box thf s m hdrag hmesh => animateStep_dragging now box thf s m hdrag hmesh
  · intro now box thf s m hdrag hmesh hle
    have h : ¬(now - s.meshStartTime > CYCLE_DURATION) := not_lt.mpr hle
    simp only [animateStep, h, if_false, hmesh, hdrag]
    exact ⟨_, rfl, rfl, rfl⟩

/-- Witness for C5 (amended): the drift branch at rotation 0 and velocity
(0.0005, 0). -/
theorem idle_rotation_spec_witness :
    (idleRotationUpdate ⟨0, 0, 0⟩ ⟨1/2000, 0⟩).1
      = ⟨0 + 1/2000 + 0.0002, 0 + 0 + 0.0003, 0 + 0.0001⟩ :=
  (idle_rotation_spec ⟨0, 0, 0⟩ ⟨1/2000, 0⟩).2.1 smallVelCond

end GlyphScanner

namespace GlyphScanner

/-- Geometry bound after the centering translate: top. -/
theorem createLetter_geoTopY (box : GeometryBox) (thf : ℚ) (s : SysState)
    (hfont : s.currentFont = true) :
    (createLetter box thf s).geoTopY = box.maxY + -(0.5 : ℚ) * (box.maxY + box.minY) := by
  simp [createLetter, hfont]

/-- Geometry bound after the centering translate: bottom. -/
theorem createLetter_geoBottomY (box : GeometryBox) (thf : ℚ) (s : SysState)
    (hfont : s.currentFont = true) :
    (createLetter box thf s).geoBottomY = box.minY + -(0.5 : ℚ) * (box.maxY + box.minY) := by
  simp [createLetter, hfont]

/-- On an advancing frame the scan Y pushed to the shader is computed from
the NEW bounds but the STALE elapsed time (bound before the reset). -/
theorem animateStep_uScanY_advance (now : ℚ) (box : GeometryBox) (thf : ℚ) (s : SysState)
    (m2 : Mesh) (h : now - s.meshStartTime > CYCLE_DURATION)
    (hm : ({ createLetter box thf { s with charIndex := (s.charIndex + 1) % CHARS.length } with
             meshStartTime := now } : SysState).currentMesh = some m2) :
    (animateStep now box thf s).uScanY
      = computeScanY
          (createLetter box thf { s with charIndex := (s.charIndex + 1) % CHARS.length }).geoTopY
          (createLetter box thf { s with charIndex := (s.charIndex + 1) % CHARS.length }).geoBottomY
          ((now - s.meshStartTime) / CYCLE_DURATION) := by
  simp only [animateStep, h, if_true, hm]

/-- On a non-advancing frame the scan Y uses the current bounds and the
current elapsed time. -/
theorem animateStep_uScanY_noAdvance (now : ℚ) (box : GeometryBox) (thf : ℚ) (s : SysState)
    (m : Mesh) (h : ¬(now - s.meshStartTime > CYCLE_DURATION)) (hm : s.currentMesh = some m) :
    (animateStep now box thf s).uScanY
      = computeScanY s.geoTopY s.geoBottomY ((now - s.meshStartTime) / CYCLE_DURATION) := by
  simp only [animateStep, h, if_false, hm]

/-- A frame at the exact start of a cycle pushes scan Y = geoTopY + 250. -/
theorem animateStep_at_cycle_start (now : ℚ) (box : GeometryBox) (thf : ℚ) (s : SysState)
    (m : Mesh) (hmesh : s.currentMesh = some m) (hnow : now - s.meshStartTime = 0) :
    (animateStep now box thf s).uScanY = s.geoTopY + 250 := by
  have h : ¬(now - s.meshStartTime > CYCLE_DURATION) := by
    rw [hnow]; norm_num [CYCLE_DURATION]
  rw [animateStep_uScanY_noAdvance now box thf s m h hmesh, hnow]
  simp [computeScanY, lerp]

end GlyphScanner

namespace GlyphScanner

/-- The frame step's resulting top bound. -/
theorem animateStep_geoTopY (now : ℚ) (box : GeometryBox) (thf : ℚ) (s : SysState) :
    (animateStep now box thf s).geoTopY =
      if now - s.meshStartTime > CYCLE_DURATION
      then (createLetter box thf { s with charIndex := (s.charIndex + 1) % CHARS.length }).geoTopY
      else s.geoTopY := by
  by_cases h : now - s.meshStartTime > CYCLE_DURATION <;>
    simp only [animateStep, h, if_true, if_false] <;> (split <;> rfl)

/-- The frame step's resulting bottom bound. -/
theorem animateStep_geoBottomY (now : ℚ) (box : GeometryBox) (thf : ℚ) (s : SysState) :
    (animateStep now box thf s).geoBottomY =
      if now - s.meshStartTime > CYCLE_DURATION
      then (createLetter box thf { s with charIndex := (s.charIndex + 1) % CHARS.length }).geoBottomY
      else s.geoBottomY := by
  by_cases h : now - s.meshStartTime > CYCLE_DURATION <;>
    simp only [animateStep, h, if_true, if_false] <;> (split <;> rfl)

/-- C6 (amended): when the elapsed cycle time strictly exceeds
`CYCLE_DURATION` with index 0, the frame advances the index to 1 and
resets the cycle start to `now`; the scan position pushed on that same
frame is the stale extrapolation `computeScanY newTop newBottom
(elapsed/D)` with progress strictly greater than 1 (it does NOT reset to
`topY + 250` on that frame); the scan position returns to exactly
`geoTopY + 250` on a following frame at the reset instant (elapsed 0 of
the new cycle). -/
theorem cycle_rollover_scan (now : ℚ) (box : GeometryBox) (thf : ℚ) (s : SysState)
    (hfont : s.currentFont = true) (hidx : s.charIndex = 0)
    (h : now - s.meshStartTime > CYCLE_DURATION) :
    (animateStep now box thf s).charIndex = 1 ∧
    (animateStep now box thf s).meshStartTime = now ∧
    (now - s.meshStartTime) / CYCLE_DURATION > 1 ∧
    (animateStep now box thf s).uScanY
      = computeScanY (animateStep now box thf s).geoTopY (animateStep now box thf s).geoBottomY
          ((now - s.meshStartTime) / CYCLE_DURATION) ∧
    (∀ (box2 : GeometryBox) (thf2 : ℚ),
        (animateStep now box2 thf2 (animateStep now box thf s)).uScanY
          = (animateStep now box thf s).geoTopY + 250) := by
  obtain ⟨m2, hm2, -⟩ := createLetter_mesh_char box thf
    { s with charIndex := (s.charIndex + 1) % CHARS.length } hfont
  have hm2' : ({ createLetter box thf { s with charIndex := (s.charIndex + 1) % CHARS.length } with
      meshStartTime := now } : SysState).currentMesh = some m2 := hm2
  have hms : (animateStep now box thf s).meshStartTime = now := by
    rw [animateStep_meshStartTime, if_pos h]
  obtain ⟨m3, hm3, -⟩ := animateStep_advance_mesh now box thf s h hfont
  refine ⟨?_, hms, ?_, ?_, ?_⟩
  · rw [animateStep_charIndex, if_pos h, hidx]; decide
  · rw [CYCLE_DURATION] at h ⊢
    rw [gt_iff_lt, lt_div_iff₀ (by norm_num : (0 : ℚ) < 2)]
    linarith
  · rw [animateStep_uScanY_advance now box thf s m2 h hm2',
        animateStep_geoTopY, if_pos h, animateStep_geoBottomY, if_pos h]
  · intro box2 thf2
    have hnow : now - (animateStep now box thf s).meshStartTime = 0 := by
      rw [hms, sub_self]
    exact animateStep_at_cycle_start now box2 thf2 (animateStep now box thf s) m3 hm3 hnow

end GlyphScanner

namespace GlyphScanner

/-- Counterexample to C6 as stated: with cycle start 0, index 0 and a
glyph with bounds 30 and -30, a frame at exactly 2.0 s does not advance the index (the
code comparison is strict); a frame at 2.5 s does advance to 1, but the
scan position pushed on that same frame is -420, not `topY + 250 = 280` —
the code computes the scan from the stale elapsed time. -/
theorem cycle_rollover_counterexample :
    ((2 : ℚ) - sampleMeshState.meshStartTime = CYCLE_DURATION ∧
     (animateStep 2 ⟨-30, 30⟩ 1 sampleMeshState).charIndex = 0) ∧
    ((5/2 : ℚ) - sampleMeshState.meshStartTime > CYCLE_DURATION ∧
     (animateStep (5/2) ⟨-30, 30⟩ 1 sampleMeshState).charIndex = 1 ∧
     (animateStep (5/2) ⟨-30, 30⟩ 1 sampleMeshState).geoTopY = 30 ∧
     (animateStep (5/2) ⟨-30, 30⟩ 1 sampleMeshState).uScanY = -420 ∧
     (animateStep (5/2) ⟨-30, 30⟩ 1 sampleMeshState).uScanY ≠ 30 + 250) := by
  have hms : sampleMeshState.meshStartTime = 0 := rfl
  have h2 : ¬((2 : ℚ) - sampleMeshState.meshStartTime > CYCLE_DURATION) := by
    rw [hms, CYCLE_DURATION]; norm_num
  have h52 : (5/2 : ℚ) - sampleMeshState.meshStartTime > CYCLE_DURATION := by
    rw [hms, CYCLE_DURATION]; norm_num
  obtain ⟨m2, hm2, -⟩ := createLetter_mesh_char ⟨-30, 30⟩ 1
    { sampleMeshState with charIndex := (sampleMeshState.charIndex + 1) % CHARS.length } rfl
  have huscan : (animateStep (5/2) ⟨-30, 30⟩ 1 sampleMeshState).uScanY = -420 := by
    rw [animateStep_uScanY_advance (5/2) ⟨-30, 30⟩ 1 sampleMeshState m2 h52 hm2,
        createLetter_geoTopY _ _ _ rfl, createLetter_geoBottomY _ _ _ rfl, hms]
    norm_num [computeScanY, lerp, CYCLE_DURATION]
  refine ⟨⟨by rw [hms, CYCLE_DURATION]; norm_num, ?_⟩, h52, ?_, ?_, huscan, ?_⟩
  · rw [animateStep_charIndex, if_neg h2]; rfl
  · rw [animateStep_charIndex, if_pos h52]; decide
  · rw [animateStep_geoTopY, if_pos h52, createLetter_geoTopY _ _ _ rfl]; norm_num
  · rw [huscan]; norm_num

/-- Witness for C6 (amended) at the sample state, frame time 2.5 s. -/
theorem cycle_rollover_scan_witness :
    (animateStep (5/2) ⟨-30, 30⟩ 1 sampleMeshState).charIndex = 1 ∧
    (animateStep (5/2) ⟨-30, 30⟩ 1 sampleMeshState).meshStartTime = 5/2 ∧
    (animateStep (5/2) ⟨-30, 30⟩ 1 (animateStep (5/2) ⟨-30, 30⟩ 1 sampleMeshState)).uScanY
      = (animateStep (5/2) ⟨-30, 30⟩ 1 sampleMeshState).geoTopY + 250 := by
  obtain ⟨h1, h2, -, -, h5⟩ := cycle_rollover_scan (5/2) ⟨-30, 30⟩ 1 sampleMeshState rfl rfl
    (by rw [CYCLE_DURATION]; norm_num [sampleMeshState, initState])
  exact ⟨h1, h2, h5 ⟨-30, 30⟩ 1⟩

end GlyphScanner

namespace GlyphScanner

/-- GLSL clamp lands in the unit interval. -/
theorem clampQ_mem (x : ℚ) : 0 ≤ clampQ x 0 1 ∧ clampQ x 0 1 ≤ 1 :=
  ⟨le_max_left 0 _, max_le (by norm_num) (min_le_left 1 x)⟩

/-- GLSL clamp to the unit interval is monotone. -/
theorem clampQ_mono {x y : ℚ} (h : x ≤ y) : clampQ x 0 1 ≤ clampQ y 0 1 :=
  max_le_max (le_refl 0) (min_le_min (le_refl 1) h)

/-- The smoothstep cubic maps the unit interval into itself. -/
theorem cubic_mem {t : ℚ} (h0 : 0 ≤ t) (h1 : t ≤ 1) :
    0 ≤ t * t * (3 - 2 * t) ∧ t * t * (3 - 2 * t) ≤ 1 := by
  constructor
  · nlinarith [mul_nonneg (mul_nonneg h0 h0) (by linarith : (0:ℚ) ≤ 3 - 2 * t)]
  · nlinarith [sq_nonneg (1 - t),
      mul_nonneg (mul_nonneg (sub_nonneg.2 h1) (sub_nonneg.2 h1)) h0]

/-- The smoothstep cubic is monotone on the unit interval. -/
theorem cubic_mono {a b : ℚ} (h0 : 0 ≤ a) (hab : a ≤ b) (h1 : b ≤ 1) :
    a * a * (3 - 2 * a) ≤ b * b * (3 - 2 * b) := by
  have hb0 : 0 ≤ b := h0.trans hab
  have ha1 : a ≤ 1 := hab.trans h1
  nlinarith [mul_nonneg (mul_nonneg (sub_nonneg.2 hab) h0) (sub_nonneg.2 ha1),
    mul_nonneg (mul_nonneg (sub_nonneg.2 hab) h0) (sub_nonneg.2 h1),
    mul_nonneg (mul_nonneg (sub_nonneg.2 hab) hb0) (sub_nonneg.2 h1),
    mul_nonneg (mul_nonneg (sub_nonneg.2 hab) hb0) (sub_nonneg.2 ha1)]

/-- Smoothstep values lie in the unit interval. -/
theorem smoothstep_mem (e x : ℚ) : 0 ≤ smoothstep 0 e x ∧ smoothstep 0 e x ≤ 1 := by
  simp only [smoothstep]
  exact cubic_mem (clampQ_mem _).1 (clampQ_mem _).2

/-- Widening the smoothstep edge lowers the value at a fixed nonnegative
input: the wider the spread, the slower the ramp. -/
theorem smoothstep_spread_mono {e1 e2 x : ℚ} (he2 : 0 < e2) (he : e2 ≤ e1) (hx : 0 ≤ x) :
    smoothstep 0 e1 x ≤ smoothstep 0 e2 x := by
  simp only [smoothstep]
  have hdiv : (x - 0) / (e1 - 0) ≤ (x - 0) / (e2 - 0) := by
    rw [sub_zero, sub_zero, sub_zero]
    exact div_le_div_of_nonneg_left hx he2 he
  exact cubic_mono (clampQ_mem _).1 (clampQ_mono hdiv) (clampQ_mem _).2

/-- At equal absolute distance from the scan line, the lead side below
(spread 100) is at most as bright as the trail side above (spread 180). -/
theorem beam_asymmetry (d : ℚ) (hd : 0 < d) : beamIntensity (-d) ≤ beamIntensity d := by
  simp only [beamIntensity]
  have hpos : d > 0 := hd
  have hneg : ¬(-d > 0) := by linarith
  simp only [hpos, hneg, if_true, if_false, abs_neg]
  rw [abs_of_pos hd]
  have hs := smoothstep_spread_mono (by norm_num : (0:ℚ) < 100)
    (by norm_num : (100:ℚ) ≤ 180) (le_of_lt hd)
  obtain ⟨hs100_0, hs100_1⟩ := smoothstep_mem 100 d
  obtain ⟨hs180_0, hs180_1⟩ := smoothstep_mem 180 d
  nlinarith [mul_nonneg (sub_nonneg.2 hs)
      (by linarith : (0:ℚ) ≤ 2 - smoothstep 0 180 d - smoothstep 0 100 d)]

/-- For positive beam intensity, any point whose normal is not fully
aligned with the view direction receives strictly more total light than a
front-facing point. -/
theorem edge_boost (b n : ℚ) (hb : 0 < b) (hn0 : 0 ≤ n) (hn1 : n < 1) :
    totalLight b 1 < totalLight b n := by
  simp only [totalLight, rim]
  rw [max_eq_right hn0, max_eq_right (by norm_num : (0:ℚ) ≤ 1)]
  nlinarith [mul_pos hb (mul_pos (sub_pos.2 hn1) (sub_pos.2 hn1))]

end GlyphScanner

namespace GlyphScanner

/-- C9 (amended): intensity falls off at least as fast below the scan line
(lead, spread 100) as above it (trail, spread 180) at every distance, and
for every STRICTLY POSITIVE beam intensity a near-silhouette point
(`NdotV < 1`, high rim) receives strictly boosted total light versus a
front-facing point (`NdotV = 1`, rim 0). -/
theorem shader_contract_spec :
    (∀ d : ℚ, 0 < d → beamIntensity (-d) ≤ beamIntensity d) ∧
    (∀ b n : ℚ, 0 < b → 0 ≤ n → n < 1 → totalLight b 1 < totalLight b n) :=
  ⟨beam_asymmetry, edge_boost⟩

/-- Witness for C9 (amended) at distance 90 and beam intensity 0.6. -/
theorem shader_contract_spec_witness :
    beamIntensity (-90) ≤ beamIntensity 90 ∧
    totalLight 0.6 1 < totalLight 0.6 0 :=
  ⟨shader_contract_spec.1 90 (by norm_num),
   shader_contract_spec.2 0.6 0 (by norm_num) (by norm_num) (by norm_num)⟩

/-- Counterexample to C9 as stated over every beam intensity: at distance
200 the beam intensity is exactly 0, and then a silhouette point
(`NdotV = 0`) receives the same total light as a front-facing one
(`NdotV = 1`) — the boost is not strict at zero intensity. -/
theorem edge_boost_counterexample :
    beamIntensity 200 = 0 ∧
    totalLight (beamIntensity 200) 0 = totalLight (beamIntensity 200) 1 := by
  have hb : beamIntensity 200 = 0 := by
    have h200 : |(200 : ℚ)| = 200 := abs_of_pos (by norm_num)
    simp only [beamIntensity]
    norm_num [h200, smoothstep, clampQ]
  exact ⟨hb, by rw [hb]; norm_num [totalLight, rim]⟩

end GlyphScanner

namespace GlyphScanner

/-- C10: with no mesh present (font not yet loaded) the handlers are
already live: pointer-down sets the dragging flag, zeroes the angular
velocity and records the down position and time; pointer-move changes
nothing at all; and a down-up pair meeting the tap thresholds still sets
`currentScale = 1.1`, `targetScale = 1.0`, `clickFlashValue = 0.5`. -/
theorem preload_handlers (pos : Vec2) (now : ℚ) (s : SysState)
    (hmesh : s.currentMesh = none) :
    ((onDown pos now s).isDragging = true ∧
     (onDown pos now s).rotationVelocity = ⟨0, 0⟩ ∧
     (onDown pos now s).downPos = pos ∧
     (onDown pos now s).downTime = now) ∧
    (onMove pos s = s) ∧
    ((now - s.downTime < 250 ∧ Real.sqrt ((distSq s.downPos pos : ℚ) : ℝ) < 5) →
       (onUp pos now s).currentScale = 1.1 ∧
       (onUp pos now s).targetScale = 1 ∧
       (onUp pos now s).clickFlashValue = 0.5) := by
  refine ⟨⟨rfl, rfl, rfl, rfl⟩, ?_, ?_⟩
  · simp [onMove, hmesh]
  · intro h
    have hiff := sqrt_lt_five_iff (distSq s.downPos pos)
    rw [onUp, if_pos ⟨h.1, hiff.mp h.2⟩]
    exact ⟨rfl, rfl, rfl⟩

/-- Witness for C10 at the initial (pre-load) state. -/
theorem preload_handlers_witness :
    (onDown ⟨0, 0⟩ 100 (initState ⟨0, 0, 0⟩)).isDragging = true ∧
    onMove ⟨0, 0⟩ (initState ⟨0, 0, 0⟩) = initState ⟨0, 0, 0⟩ ∧
    (onUp ⟨0, 0⟩ 100 (initState ⟨0, 0, 0⟩)).currentScale = 1.1 := by
  obtain ⟨⟨h1, -, -, -⟩, h2, h3⟩ := preload_handlers ⟨0, 0⟩ 100 (initState ⟨0, 0, 0⟩) rfl
  refine ⟨h1, h2, (h3 ⟨by norm_num [initState], ?_⟩).1⟩
  have h0 : distSq (initState ⟨0, 0, 0⟩).downPos ⟨0, 0⟩ = 0 := by simp [distSq, initState]
  rw [h0]
  simp [Real.sqrt_zero]

end GlyphScanner

namespace GlyphScanner

/-- C8 (amended): for every newly constructed shape the camera z position
is recomputed as the 90%-fill fit distance `(sizeY * 0.9) / (2*tan(fov/2))`
PLUS the fixed offset 40 (line 244), so the framing is recomputed per
shape from its vertical extent but the distance is not the bare fit
formula. -/
theorem camera_fit_spec (box : GeometryBox) (thf : ℚ) (s : SysState)
    (hfont : s.currentFont = true) :
    (createLetter box thf s).cameraZ
      = ((box.maxY - box.minY) * 0.9) / (2 * thf) + 40 := by
  simp [createLetter, hfont]

/-- Witness for C8 (amended) at a glyph of vertical extent 60 and
`tan(fov/2) = 1`. -/
theorem camera_fit_spec_witness :
    (createLetter ⟨-30, 30⟩ 1 sampleMeshState).cameraZ
      = (((30 : ℚ) - (-30)) * 0.9) / (2 * 1) + 40 :=
  camera_fit_spec ⟨-30, 30⟩ 1 sampleMeshState rfl

/-- Counterexample to C8 as stated: for the 60-unit glyph with
`tan(fov/2) = 1` the claimed formula gives 27, but the code sets the
camera distance to 67 = 27 + 40. -/
theorem camera_fit_counterexample :
    (createLetter ⟨-30, 30⟩ 1 sampleMeshState).cameraZ = 67 ∧
    (createLetter ⟨-30, 30⟩ 1 sampleMeshState).cameraZ
      ≠ (((30 : ℚ) - (-30)) * 0.9) / (2 * 1) := by
  have h : (createLetter ⟨-30, 30⟩ 1 sampleMeshState).cameraZ = 67 := by
    norm_num [createLetter, sampleMeshState, initState]
  exact ⟨h, by rw [h]; norm_num⟩

end GlyphScanner
